import Mathlib

/-!
Verification development for the conversational-AI phone backend.

Shallow embedding of the core call-session subsystem:
* `src/src/utils/conversation.js` — the `ConversationManager` session store,
* `src/src/services/openai.js` — `generatePhoneResponse` and the analysis fallback,
* `src/src/services/elevenlabs.js` — `optimizeTextForPhone`,
* `src/src/services/twilio.js` — the TwiML generators,
* the voice controller (`handleIncomingCall`, `processSpeech`, status handling).

Modelling conventions:
* Timestamps (`new Date()` / `Date.now()`) are integers in milliseconds; all
  `new Date()` calls inside one webhook invocation are abstracted to a single
  `now` parameter (their sub-millisecond differences never matter to the code).
* JavaScript numbers used for the running response-time average are modelled
  as exact rationals (`ℚ`); the code never relies on float rounding.
* Downstream network calls (LLM completion, context analysis, speech
  synthesis) are oracles passed in as `Except`/`Option` parameters; the
  embedding reproduces exactly how the code reacts to each outcome.
* String fields irrelevant to control flow (free-form message metadata,
  token-usage records) are omitted; every field the code branches on or that
  a claim mentions is kept.
* `\x27` inside string literals encodes the apostrophe character appearing in
  the corresponding JavaScript string.
-/

namespace ConvAI

/-! ### Data model (`createSession`, src/src/utils/conversation.js lines 24-46) -/

/-- One conversation message (a Turn): `{ role, content, timestamp }`.
The free-form `metadata` object carried by messages never influences control
flow and is omitted. -/
structure Msg where
  role : String
  content : String
  timestamp : Int
deriving DecidableEq

/-- `session.context`.  `userName`/`topic` start as `null` (`none`); the
analysis merge (`Object.assign`) later writes `intent` and `shouldEndCall`
into the same object, so they are carried here as optional fields that start
absent. -/
structure Context where
  userName : Option String
  topic : Option String
  mood : String
  intent : Option String
  shouldEndCall : Option Bool
deriving DecidableEq

/-- `session.metadata`: `{ totalMessages, averageResponseTime, errors }`. -/
structure Metadata where
  totalMessages : Nat
  averageResponseTime : ℚ
  errors : Nat
deriving DecidableEq

/-- A conversation session as built by `createSession`. -/
structure Session where
  callSid : String
  startTime : Int
  lastActivity : Int
  messages : List Msg
  context : Context
  metadata : Metadata
deriving DecidableEq

/-- The in-memory `Map` of `ConversationManager.sessions`, modelled as an
insertion-ordered association list (JavaScript `Map` iteration order). -/
abbrev Store := List (String × Session)

/-- `Map.prototype.get`: first (and, absent key duplication, only) binding. -/
def storeLookup (store : Store) (sid : String) : Option Session :=
  match store with
  | [] => none
  | (k, v) :: rest => if k = sid then some v else storeLookup rest sid

/-- `Map.prototype.set`: overwrite in place if the key exists, else append. -/
def storeSet (store : Store) (sid : String) (s : Session) : Store :=
  match store with
  | [] => [(sid, s)]
  | (k, v) :: rest => if k = sid then (k, s) :: rest else (k, v) :: storeSet rest sid s

/-- `Map.prototype.delete`. -/
def storeDelete (store : Store) (sid : String) : Store :=
  store.filter (fun p => p.1 != sid)

/-- The fresh session record literal of `createSession`
(src/src/utils/conversation.js lines 25-40). -/
def createSessionRecord (callSid : String) (now : Int) : Session :=
  { callSid := callSid
    startTime := now
    lastActivity := now
    messages := []
    context := { userName := none, topic := none, mood := "neutral",
                 intent := none, shouldEndCall := none }
    metadata := { totalMessages := 0, averageResponseTime := 0, errors := 0 } }

/-- `createSession` (lines 24-46): builds a fresh record and unconditionally
`set`s it, returning the session. -/
def createSession (store : Store) (callSid : String) (now : Int) : Store × Session :=
  let s := createSessionRecord callSid now
  (storeSet store callSid s, s)

/-- `getSession` (lines 51-61): fetch, else create; on fetch refresh
`lastActivity`. -/
def getSession (store : Store) (callSid : String) (now : Int) : Store × Session :=
  match storeLookup store callSid with
  | none => createSession store callSid now
  | some s =>
      let s2 := { s with lastActivity := now }
      (storeSet store callSid s2, s2)

/-- JavaScript `messages.slice(-m)`: the last `m` elements, except that
`slice(-0)` is `slice(0)` and copies the whole array. -/
def sliceLast (xs : List Msg) (m : Nat) : List Msg :=
  if m = 0 then xs else xs.drop (xs.length - m)

/-- `addMessage` (lines 66-92): push the message, bump `totalMessages`,
refresh `lastActivity`, then trim the history to the configured maximum
(`config.app.maxConversationLength`, default 10) by keeping the most recent
messages.  Returns the message just as the source does. -/
def addMessage (maxLen : Nat) (store : Store) (callSid role content : String)
    (now : Int) : Store × Msg :=
  let fetched := getSession store callSid now
  let session := fetched.2
  let message : Msg := { role := role, content := content, timestamp := now }
  let msgs := session.messages ++ [message]
  let session2 : Session :=
    { session with
      messages := if msgs.length > maxLen then sliceLast msgs maxLen else msgs
      metadata := { session.metadata with totalMessages := session.metadata.totalMessages + 1 }
      lastActivity := now }
  (storeSet fetched.1 callSid session2, message)

/-- JavaScript truthiness of an optional string: `undefined`/`null` and the
empty string are falsy. -/
def truthyOpt : Option String → Bool
  | none => false
  | some s => !(s == "")

/-- Models `Date#toLocaleTimeString` as a deterministic rendering of the
timestamp; the exact locale format never matters to the code. -/
def toLocaleTimeString (t : Int) : String := toString t

/-- The fixed behavioural preamble of `getSystemPrompt` (lines 118-129),
up to the interpolated call-start time. -/
def behavioralPreamble : String :=
  "You are a helpful AI assistant speaking with someone over the phone. \n\nKey guidelines:\n- Keep responses conversational and natural\n- Responses should be 1-3 sentences maximum\n- Speak as if you\x27re having a phone conversation\n- Be friendly, helpful, and engaging\n- If asked about your capabilities, mention you can help with questions, provide information, and have conversations\n- If the conversation seems to be ending, politely wrap up\n\nCurrent conversation context:\n- Call started: "

/-- The `basePrompt` template literal of `getSystemPrompt` (lines 118-130). -/
def basePrompt (session : Session) : String :=
  behavioralPreamble ++ toLocaleTimeString session.startTime
    ++ "\n- Messages exchanged: " ++ toString session.metadata.totalMessages

/-- `getSystemPrompt` (lines 117-142): the base prompt plus at most one
contextual line; a truthy `userName` returns early, so it shadows `topic`. -/
def getSystemPrompt (session : Session) : String :=
  if truthyOpt session.context.userName then
    basePrompt session ++ "\n- User\x27s name: " ++ session.context.userName.getD ""
  else if truthyOpt session.context.topic then
    basePrompt session ++ "\n- Current topic: " ++ session.context.topic.getD ""
  else
    basePrompt session

/-- `getConversationHistory` (lines 97-112): system prompt followed by the
stored messages as (role, content) pairs. -/
def getConversationHistory (store : Store) (callSid : String) (now : Int) :
    Store × List (String × String) :=
  let fetched := getSession store callSid now
  (fetched.1,
   ("system", getSystemPrompt fetched.2) :: fetched.2.messages.map (fun m => (m.role, m.content)))

/-- The analysis record produced by `analyzeConversation`
(src/src/services/openai.js lines 122-173). -/
structure Analysis where
  userName : Option String
  topic : Option String
  mood : String
  intent : String
  shouldEndCall : Bool
deriving DecidableEq

/-- `Object.assign(session.context, updates)` where `updates` is a full
analysis record: every context field is overwritten (a `null` `userName`
overwrites a previously extracted name). -/
def applyAnalysis (_old : Context) (a : Analysis) : Context :=
  { userName := a.userName, topic := a.topic, mood := a.mood,
    intent := some a.intent, shouldEndCall := some a.shouldEndCall }

/-- `updateContext` (lines 147-154). -/
def updateContext (store : Store) (callSid : String) (a : Analysis) (now : Int) : Store :=
  let fetched := getSession store callSid now
  let session2 := { fetched.2 with context := applyAnalysis fetched.2.context a }
  storeSet fetched.1 callSid session2

/-- `recordResponseTime` (lines 159-174): running update using the current
`totalMessages` as the divisor. -/
def recordResponseTime (store : Store) (callSid : String) (responseTime : ℚ)
    (now : Int) : Store :=
  let fetched := getSession store callSid now
  let session := fetched.2
  let currentAvg := session.metadata.averageResponseTime
  let totalMessages : ℚ := session.metadata.totalMessages
  let session2 :=
    { session with
      metadata := { session.metadata with
        averageResponseTime := (currentAvg * (totalMessages - 1) + responseTime) / totalMessages } }
  storeSet fetched.1 callSid session2

/-- `recordError` (lines 179-190). -/
def recordError (store : Store) (callSid : String) (now : Int) : Store :=
  let fetched := getSession store callSid now
  let session2 :=
    { fetched.2 with
      metadata := { fetched.2.metadata with errors := fetched.2.metadata.errors + 1 } }
  storeSet fetched.1 callSid session2

/-- `endSession` (lines 195-210): delete if present (idempotent no-op
otherwise). -/
def endSession (store : Store) (callSid : String) : Store :=
  storeDelete store callSid

/-- The sweep of `cleanupOldSessions` (lines 215-229) with the idle threshold
as an explicit parameter: remove every session whose `lastActivity` is
strictly older than `now - idleThreshold` and report how many were removed. -/
def cleanupWith (store : Store) (now idleThreshold : Int) : Store × Nat :=
  let cutoff := now - idleThreshold
  ((store.filter fun p => !(decide (p.2.lastActivity < cutoff))),
   (store.filter fun p => decide (p.2.lastActivity < cutoff)).length)

/-- `cleanupOldSessions` as in the source: threshold hard-coded to one hour
(`60 * 60 * 1000` milliseconds). -/
def cleanupOldSessions (store : Store) (now : Int) : Store × Nat :=
  cleanupWith store now (60 * 60 * 1000)

/-! ### OpenAI service (src/src/services/openai.js) -/

/-- Outcome of a successful `generateResponse` call: the generated text and
the measured duration (token-usage bookkeeping is omitted — never branched
on). -/
structure CompletionOutcome where
  response : String
  duration : ℚ
deriving DecidableEq

/-- The default analysis used when the analysis request fails or its JSON
reply does not parse (lines 145-158 and 160-172 build the identical
record). -/
def defaultAnalysisOnError : Analysis :=
  { userName := none, topic := some "general", mood := "neutral",
    intent := "conversation", shouldEndCall := false }

/-- `analyzeConversation` (lines 122-173): the downstream analysis call plus
JSON parse, abstracted to its parsed outcome; any failure is absorbed into
the default record, so the function never throws. -/
def analyzeConversation (parsed : Option Analysis) : Analysis :=
  parsed.getD defaultAnalysisOnError

/-- The fallback object returned by `generatePhoneResponse`'s catch block
(lines 208-220). -/
structure PhoneResult where
  response : String
  analysis : Analysis
  duration : ℚ
deriving DecidableEq

/-- The fixed apology of the completion-failure fallback (line 210). -/
def completionFallbackText : String :=
  "I\x27m sorry, I\x27m having trouble processing that right now. Could you try asking in a different way?"

def fallbackPhoneResult : PhoneResult :=
  { response := completionFallbackText
    analysis := { userName := none, topic := some "error", mood := "neutral",
                  intent := "retry", shouldEndCall := false }
    duration := 0 }

/-- Result of one `generatePhoneResponse` invocation together with how many
times the completion API and the analysis step were invoked. -/
structure PhoneCall where
  result : Except String PhoneResult
  completionCalls : Nat
  analysisCalls : Nat

/-- `generatePhoneResponse` (lines 178-222).  `userInput` is the second
parameter of the JavaScript function; the voice controller passes only one
argument, so at its only call site `userInput` is `undefined` (`none`).
On completion failure the catch block first evaluates
`userInput.substring(0, 100)` for its log entry; with `userInput` undefined
this itself throws a `TypeError`, so the fallback result on the lines below
is never returned and the exception propagates to the caller. -/
def generatePhoneResponse (_history : List (String × String)) (userInput : Option String)
    (completion : Except String CompletionOutcome) (analysisParsed : Option Analysis) :
    PhoneCall :=
  match completion with
  | Except.ok r =>
      { result := Except.ok
          { response := r.response
            analysis := analyzeConversation analysisParsed
            duration := r.duration }
        completionCalls := 1
        analysisCalls := 1 }
  | Except.error _ =>
      match userInput with
      | none =>
          { result := Except.error "TypeError: Cannot read properties of undefined (reading substring)"
            completionCalls := 1
            analysisCalls := 0 }
      | some _ =>
          { result := Except.ok fallbackPhoneResult
            completionCalls := 1
            analysisCalls := 0 }

/-! ### Twilio TwiML generators (src/src/services/twilio.js) -/

/-- The TwiML verbs emitted by the service, in document order. -/
inductive Verb where
  | say (voice : String) (text : String)
  | play (url : String)
  | gather (action : String)
  | redirect (url : String)
  | hangup
deriving DecidableEq

def processSpeechAction : String :=
  "https://web-production-cb494.up.railway.app/webhook/process-speech"

/-- `generateGreeting` (lines 19-42). -/
def generateGreeting : List Verb :=
  [Verb.say "alice" "Hello! I\x27m your AI assistant. Please speak after the tone, and I\x27ll respond to you.",
   Verb.gather processSpeechAction,
   Verb.say "alice" "I didn\x27t hear anything. Please try speaking again.",
   Verb.redirect "https://web-production-cb494.up.railway.app/webhook/voice"]

/-- `generateAudioResponse` (lines 47-71). -/
def generateAudioResponse (audioUrl : String) : List Verb :=
  [Verb.play audioUrl,
   Verb.gather processSpeechAction,
   Verb.say "alice" "I didn\x27t hear anything. Please speak again or say goodbye if you\x27d like to end the call.",
   Verb.redirect processSpeechAction]

/-- `generateContinueConversation` (lines 76-96): re-prompt for speech; only
if that gather times out does the document say goodbye and hang up. -/
def generateContinueConversation : List Verb :=
  [Verb.gather processSpeechAction,
   Verb.say "alice" "I didn\x27t hear a response. Thank you for calling!",
   Verb.hangup]

/-- `generateError` (lines 101-111): speak the message, then hang up
unconditionally. -/
def generateError (message : String) : List Verb :=
  [Verb.say "alice" message, Verb.hangup]

/-- `generateTextResponse` (lines 117-143): speak the text with Twilio's
built-in voice, then listen again. -/
def generateTextResponse (text : String) : List Verb :=
  [Verb.say "alice" text,
   Verb.gather "/webhook/process-speech",
   Verb.say "alice" "Is there anything else I can help you with?",
   Verb.redirect "/webhook/process-speech"]

/-- A TwiML document keeps the call alive when it asks for further input
(contains a `gather` or a `redirect`); a document that only speaks and then
hangs up terminates the call. -/
def keepsCallAlive (tw : List Verb) : Bool :=
  tw.any fun v =>
    match v with
    | Verb.gather _ => true
    | Verb.redirect _ => true
    | _ => false

/-- Whether a TwiML document plays synthesized audio (`audio`-kind
directive). -/
def containsPlay (tw : List Verb) : Bool :=
  tw.any fun v =>
    match v with
    | Verb.play _ => true
    | _ => false

/-! ### ElevenLabs text optimisation (src/src/services/elevenlabs.js
lines 164-188) -/

/-- Terminal punctuation: `.`, `!`, `?`. -/
def isTermPunct (c : Char) : Bool :=
  c == '.' || c == '!' || c == '?'

/-- `/[c]{2,}/g → c`: every maximal run of the character collapses to a
single occurrence. -/
def collapseRuns (c : Char) : List Char → List Char
  | [] => []
  | [x] => [x]
  | x :: y :: rest =>
      if x = c ∧ y = c then collapseRuns c (y :: rest)
      else x :: collapseRuns c (y :: rest)

/-- JavaScript `\w`: ASCII letters, digits, underscore. -/
def isWordChar (c : Char) : Bool :=
  c.isAlpha || c.isDigit || c == '_'

/-- The word-boundary state after consuming a matched pattern: wordness of
its last character. -/
def wordAfter (pat : List Char) (pw : Bool) : Bool :=
  match pat.getLast? with
  | some c => isWordChar c
  | none => pw

/-- Global regex replace of a literal pattern that starts at a `\b` word
boundary (all the abbreviation patterns begin with a word character, so the
boundary holds exactly when the previous character is absent or is not a
word character).  `pw` tracks whether the previous scanned character of the
original string is a word character.  Matches are leftmost and
non-overlapping, as for JavaScript `String.prototype.replace` with a global
regex.  The extra `fuel` argument only forces structural termination: each
step consumes at least one character, so a call with `fuel ≥ l.length`
(always the case below, where `fuel = l.length`) never reaches the
fuel-exhausted arm. -/
def replWB (pat rep : List Char) : Nat → Bool → List Char → List Char
  | 0, _, l => l
  | _, _, [] => []
  | fuel + 1, pw, c :: rest =>
      if pw = false ∧ pat.isPrefixOf (c :: rest) = true ∧ 0 < pat.length then
        rep ++ replWB pat rep fuel (wordAfter pat pw) ((c :: rest).drop pat.length)
      else
        c :: replWB pat rep fuel (isWordChar c) rest

/-- The abbreviation table of `optimizeTextForPhone`, in source order. -/
def abbrevPairs : List (String × String) :=
  [("Dr.", "Doctor"), ("Mr.", "Mister"), ("Mrs.", "Missus"), ("Ms.", "Miss"),
   ("etc.", "etcetera"), ("i.e.", "that is"), ("e.g.", "for example")]

/-- One chained `.replace(/\bpat/g, rep)` pass. -/
def replacePass (l : List Char) (p : String × String) : List Char :=
  replWB p.1.toList p.2.toList l.length false l

/-- The seven abbreviation replaces, applied in source order. -/
def expandAbbrevs (l : List Char) : List Char :=
  abbrevPairs.foldl replacePass l

/-- The whitespace recognised by `String.prototype.trim`: the ECMA-262
WhiteSpace production (TAB, VT, FF, SP, NBSP, ZWNBSP/BOM and the Unicode
Space_Separator category Zs — U+1680, U+2000..U+200A, U+202F, U+205F,
U+3000) together with the LineTerminator production (LF, CR, LS U+2028,
PS U+2029). -/
def isJsWS (c : Char) : Bool :=
  c == ' ' || c == '\t' || c == '\n' || c == '\r' || c == '\x0b' || c == '\x0c' ||
  c == '\u00A0' || c == '\u1680' ||
  (decide ('\u2000' ≤ c) && decide (c ≤ '\u200A')) ||
  c == '\u2028' || c == '\u2029' || c == '\u202F' || c == '\u205F' ||
  c == '\u3000' || c == '\uFEFF'

/-- `String.prototype.trim`. -/
def trimChars (l : List Char) : List Char :=
  ((l.dropWhile isJsWS).reverse.dropWhile isJsWS).reverse

/-- `.replace(/([^.!?])$/, "$1.")`: append a period when the (non-empty)
text does not already end in terminal punctuation; the empty string has no
last character to match, so it is returned unchanged. -/
def ensureEnd (l : List Char) : List Char :=
  match l.getLast? with
  | none => l
  | some c => if isTermPunct c then l else l ++ ['.']

/-- The three punctuation-collapsing replaces, in source order. -/
def collapsePunct (l : List Char) : List Char :=
  collapseRuns '?' (collapseRuns '!' (collapseRuns '.' l))

/-- `optimizeTextForPhone` (lines 164-188).  The three "add pauses"
replaces (`/\. /g → ". "` etc.) substitute each match for itself and are
identities, so they are not represented. -/
def optimizeTextForPhone (s : String) : String :=
  String.mk (ensureEnd (trimChars (expandAbbrevs (collapsePunct s.data))))

/-- Whether a string ends with `.`, `!` or `?`. -/
def endsWithTerminalPunct (s : String) : Bool :=
  match s.data.getLast? with
  | some c => isTermPunct c
  | none => false

/-- No two adjacent occurrences of the character `d` (a run of length at
least two) anywhere in the list. -/
def noRunB (d : Char) : List Char → Bool
  | x :: y :: rest => !(x == d && y == d) && noRunB d (y :: rest)
  | _ => true

/-! ### Voice controller (src/unnamed/part_002) -/

/-- `handleIncomingCall` (lines 17-45): unconditionally create a fresh
session for the call id and answer with the greeting TwiML. -/
def handleIncomingCall (store : Store) (callSid : String) (now : Int) :
    Store × List Verb :=
  let created := createSession store callSid now
  (created.1, generateGreeting)

/-- The custom apology the outer catch of `processSpeech` passes to
`generateError` (line 140). -/
def errorApology : String :=
  "I\x27m sorry, I had trouble understanding. Could you try again?"

/-- Outcome of one `processSpeech` webhook invocation: the session store
afterwards, the TwiML document sent back, and how many times each
downstream service was invoked. -/
structure TurnResult where
  store : Store
  twiml : List Verb
  completionCalls : Nat
  analysisCalls : Nat
  synthesisCalls : Nat
deriving DecidableEq

/-- `processSpeech` (lines 50-144).

* `speechResult` is the webhook's `SpeechResult` field (`none` = absent);
  a falsy value takes the explicit no-op branch (lines 56-63).
* `responseTime` abstracts `Date.now() - startTime` at line 124.
* `completion` / `analysisParsed` / `synthesis` are the downstream oracles.
* `generatePhoneResponse` is invoked with a single argument
  (line 78: `generatePhoneResponse(conversationHistory)`), hence
  `userInput := none`; on completion failure its catch block therefore
  throws, landing in the outer catch (lines 130-143) which records the
  error (guarded by a truthy `CallSid`) and replies with the hang-up error
  TwiML. -/
def processSpeech (maxLen : Nat) (store : Store) (callSid : String)
    (speechResult : Option String) (now : Int) (responseTime : ℚ)
    (completion : Except String CompletionOutcome) (analysisParsed : Option Analysis)
    (synthesis : Except String String) : TurnResult :=
  if truthyOpt speechResult then
    let utterance := speechResult.getD ""
    let st1 := (addMessage maxLen store callSid "user" utterance now).1
    let hist := getConversationHistory st1 callSid now
    let call := generatePhoneResponse hist.2 none completion analysisParsed
    match call.result with
    | Except.error _ =>
        let st3 := if callSid == "" then hist.1 else recordError hist.1 callSid now
        { store := st3
          twiml := generateError errorApology
          completionCalls := call.completionCalls
          analysisCalls := call.analysisCalls
          synthesisCalls := 0 }
    | Except.ok aiResult =>
        let st3 := updateContext hist.1 callSid aiResult.analysis now
        let st4 := (addMessage maxLen st3 callSid "assistant" aiResult.response now).1
        let st5 := (getSession st4 callSid now).1
        match synthesis with
        | Except.ok audioUrl =>
            { store := recordResponseTime st5 callSid responseTime now
              twiml := generateAudioResponse audioUrl
              completionCalls := call.completionCalls
              analysisCalls := call.analysisCalls
              synthesisCalls := 1 }
        | Except.error _ =>
            { store := recordResponseTime st5 callSid responseTime now
              twiml := generateTextResponse aiResult.response
              completionCalls := call.completionCalls
              analysisCalls := call.analysisCalls
              synthesisCalls := 1 }
  else
    { store := store
      twiml := generateContinueConversation
      completionCalls := 0
      analysisCalls := 0
      synthesisCalls := 0 }

/-- `handleCallStatus` (lines 149-173): end the session on a terminal call
status. -/
def handleCallStatus (store : Store) (callSid status : String) : Store :=
  if status == "completed" || status == "failed" || status == "busy" || status == "no-answer" then
    endSession store callSid
  else store

/-! ### Observation helpers for the claim statements -/

/-- The stored error counter for a call id (0 when no session exists — a
fresh session starts at 0). -/
def errorsOf (store : Store) (sid : String) : Nat :=
  ((storeLookup store sid).map fun s => s.metadata.errors).getD 0

/-- The stored running average for a call id. -/
def avgOf (store : Store) (sid : String) : ℚ :=
  ((storeLookup store sid).map fun s => s.metadata.averageResponseTime).getD 0

/-- The stored message counter for a call id. -/
def tmOf (store : Store) (sid : String) : Nat :=
  ((storeLookup store sid).map fun s => s.metadata.totalMessages).getD 0

/-- The roles of the stored history for a call id. -/
def rolesOf (store : Store) (sid : String) : List String :=
  ((storeLookup store sid).map fun s => s.messages.map Msg.role).getD []

/-- One full successful turn of the conversation loop, as driven by the
`processSpeech` webhook with both downstream calls succeeding; used to state
the running-average behaviour over a sequence of turns. -/
def turnStep (maxLen : Nat) (sid : String) (now : Int) (store : Store) (d : ℚ) : Store :=
  (processSpeech maxLen store sid (some "hi") now d
     (Except.ok { response := "ok", duration := 0 }) none (Except.ok "url")).store

/-- Run a sequence of successful turns with the given per-turn durations. -/
def runTurns (maxLen : Nat) (sid : String) (now : Int) (store : Store) (ds : List ℚ) : Store :=
  ds.foldl (turnStep maxLen sid now) store

/-- The store after creating a single fresh session for `"CA1"` at time 0. -/
def freshStore : Store :=
  (handleIncomingCall [] "CA1" 0).1

/-- Running average after the given turn durations, starting from a freshly
created session. -/
def avgAfter (ds : List ℚ) : ℚ :=
  avgOf (runTurns 10 "CA1" 0 freshStore ds) "CA1"

/-- The stored history length for a call id (0 when no session exists). -/
def histLenOf (store : Store) (sid : String) : Nat :=
  ((storeLookup store sid).map fun s => s.messages.length).getD 0

/-- The contents of the stored history for a call id. -/
def contentsOf (store : Store) (sid : String) : List String :=
  ((storeLookup store sid).map fun s => s.messages.map Msg.content).getD []

/-- The turn on which the completion request fails: non-empty utterance,
failing completion oracle, synthesis oracle irrelevant. -/
def c1Run : TurnResult :=
  processSpeech 10 freshStore "CA1" (some "Hello") 1 100
    (Except.error "OpenAI API error: Request failed") none
    (Except.ok "http://localhost:3000/audio/CA1_2.mp3")

/-- Eleven consecutive message appends on one call with the default
maximum of 10. -/
def c3Store : Store :=
  ["m1", "m2", "m3", "m4", "m5", "m6", "m7", "m8", "m9", "m10", "m11"].foldl
    (fun st c => (addMessage 10 st "CA1" "user" c 0).1) []

/-- A session whose message counter stands at 2 (one user and one assistant
message recorded), used to witness the running-average update law. -/
def demoSession : Session :=
  { createSessionRecord "CA1" 0 with
    metadata := { totalMessages := 2, averageResponseTime := 0, errors := 0 } }

def demoStore : Store := [("CA1", demoSession)]

/-- A store with one stale session (last activity at time 0) and one fresh
session (last activity at time 100), used to witness the idle sweep. -/
def sweepStore : Store :=
  [("S1", createSessionRecord "S1" 0), ("S2", createSessionRecord "S2" 100)]

/-! ## Basic store lemmas -/

theorem storeLookup_storeSet_self (st : Store) (sid : String) (s : Session) :
    storeLookup (storeSet st sid s) sid = some s := by
  induction st with
  | nil => simp [storeSet, storeLookup]
  | cons p rest ih =>
      obtain ⟨k, v⟩ := p
      by_cases h : k = sid
      · simp [storeSet, storeLookup, h]
      · simp [storeSet, storeLookup, h, ih]

theorem storeLookup_storeDelete_self (st : Store) (sid : String) :
    storeLookup (storeDelete st sid) sid = none := by
  induction st with
  | nil => simp [storeDelete, storeLookup]
  | cons p rest ih =>
      obtain ⟨k, v⟩ := p
      by_cases h : k = sid
      · subst h
        simpa [storeDelete, List.filter_cons, bne_self_eq_false] using ih
      · have hb : (k != sid) = true := bne_iff_ne.mpr h
        simpa [storeDelete, List.filter_cons, hb, storeLookup, h] using ih

theorem mem_keys_of_storeLookup {st : Store} {sid : String} {s : Session}
    (h : storeLookup st sid = some s) : sid ∈ st.map Prod.fst := by
  induction st with
  | nil => simp [storeLookup] at h
  | cons p rest ih =>
      obtain ⟨k, v⟩ := p
      by_cases hk : k = sid
      · simp [hk]
      · simp only [storeLookup, if_neg hk] at h
        simp [ih h]

theorem storeLookup_eq_none_of_not_mem {st : Store} {sid : String}
    (h : sid ∉ st.map Prod.fst) : storeLookup st sid = none := by
  cases hl : storeLookup st sid with
  | none => rfl
  | some s => exact absurd (mem_keys_of_storeLookup hl) h

/-! ## Session-fetch lemmas -/

theorem getSession_snd_metadata (st : Store) (sid : String) (now : Int) :
    (getSession st sid now).2.metadata =
      { totalMessages := tmOf st sid, averageResponseTime := avgOf st sid,
        errors := errorsOf st sid } := by
  cases h : storeLookup st sid <;>
    simp [getSession, h, createSession, createSessionRecord, tmOf, avgOf, errorsOf]

theorem getSession_snd_messages (st : Store) (sid : String) (now : Int) :
    (getSession st sid now).2.messages = ((storeLookup st sid).map Session.messages).getD [] := by
  cases h : storeLookup st sid <;>
    simp [getSession, h, createSession, createSessionRecord]

theorem storeLookup_getSession_fst (st : Store) (sid : String) (now : Int) :
    storeLookup (getSession st sid now).1 sid = some (getSession st sid now).2 := by
  cases h : storeLookup st sid <;>
    simp [getSession, h, createSession, storeLookup_storeSet_self]

/-! ## Preservation of the per-session metrics along each store operation -/

theorem errorsOf_getSession_fst (st : Store) (sid : String) (now : Int) :
    errorsOf (getSession st sid now).1 sid = errorsOf st sid := by
  have h := storeLookup_getSession_fst st sid now
  simp [errorsOf, h, getSession_snd_metadata]

theorem tmOf_getSession_fst (st : Store) (sid : String) (now : Int) :
    tmOf (getSession st sid now).1 sid = tmOf st sid := by
  have h := storeLookup_getSession_fst st sid now
  simp [tmOf, h, getSession_snd_metadata]

theorem avgOf_getSession_fst (st : Store) (sid : String) (now : Int) :
    avgOf (getSession st sid now).1 sid = avgOf st sid := by
  have h := storeLookup_getSession_fst st sid now
  simp [avgOf, h, getSession_snd_metadata]

theorem errorsOf_addMessage (N : Nat) (st : Store) (sid role content : String) (now : Int) :
    errorsOf (addMessage N st sid role content now).1 sid = errorsOf st sid := by
  simp [addMessage, errorsOf, storeLookup_storeSet_self]
  have h := getSession_snd_metadata st sid now
  simp [h, errorsOf]

theorem tmOf_addMessage (N : Nat) (st : Store) (sid role content : String) (now : Int) :
    tmOf (addMessage N st sid role content now).1 sid = tmOf st sid + 1 := by
  simp [addMessage, tmOf, storeLookup_storeSet_self]
  have h := getSession_snd_metadata st sid now
  simp [h, tmOf]

theorem avgOf_addMessage (N : Nat) (st : Store) (sid role content : String) (now : Int) :
    avgOf (addMessage N st sid role content now).1 sid = avgOf st sid := by
  simp [addMessage, avgOf, storeLookup_storeSet_self]
  have h := getSession_snd_metadata st sid now
  simp [h, avgOf]

theorem errorsOf_updateContext (st : Store) (sid : String) (a : Analysis) (now : Int) :
    errorsOf (updateContext st sid a now) sid = errorsOf st sid := by
  simp [updateContext, errorsOf, storeLookup_storeSet_self]
  have h := getSession_snd_metadata st sid now
  simp [h, errorsOf]

theorem tmOf_updateContext (st : Store) (sid : String) (a : Analysis) (now : Int) :
    tmOf (updateContext st sid a now) sid = tmOf st sid := by
  simp [updateContext, tmOf, storeLookup_storeSet_self]
  have h := getSession_snd_metadata st sid now
  simp [h, tmOf]

theorem avgOf_updateContext (st : Store) (sid : String) (a : Analysis) (now : Int) :
    avgOf (updateContext st sid a now) sid = avgOf st sid := by
  simp [updateContext, avgOf, storeLookup_storeSet_self]
  have h := getSession_snd_metadata st sid now
  simp [h, avgOf]

theorem errorsOf_recordResponseTime (st : Store) (sid : String) (rt : ℚ) (now : Int) :
    errorsOf (recordResponseTime st sid rt now) sid = errorsOf st sid := by
  simp [recordResponseTime, errorsOf, storeLookup_storeSet_self]
  have h := getSession_snd_metadata st sid now
  simp [h, errorsOf]

theorem tmOf_recordResponseTime (st : Store) (sid : String) (rt : ℚ) (now : Int) :
    tmOf (recordResponseTime st sid rt now) sid = tmOf st sid := by
  simp [recordResponseTime, tmOf, storeLookup_storeSet_self]
  have h := getSession_snd_metadata st sid now
  simp [h, tmOf]

theorem avgOf_recordResponseTime (st : Store) (sid : String) (rt : ℚ) (now : Int) :
    avgOf (recordResponseTime st sid rt now) sid =
      (avgOf st sid * ((tmOf st sid : ℚ) - 1) + rt) / (tmOf st sid : ℚ) := by
  simp [recordResponseTime, avgOf, storeLookup_storeSet_self]
  have h := getSession_snd_metadata st sid now
  simp [h, avgOf, tmOf]

theorem errorsOf_recordError (st : Store) (sid : String) (now : Int) :
    errorsOf (recordError st sid now) sid = errorsOf st sid + 1 := by
  simp [recordError, errorsOf, storeLookup_storeSet_self]
  have h := getSession_snd_metadata st sid now
  simp [h, errorsOf]

theorem getConversationHistory_fst (st : Store) (sid : String) (now : Int) :
    (getConversationHistory st sid now).1 = (getSession st sid now).1 := rfl

/-! ## The metrics of one full successful turn -/

theorem tmOf_turnStep (N : Nat) (sid : String) (now : Int) (st : Store) (d : ℚ) :
    tmOf (turnStep N sid now st d) sid = tmOf st sid + 2 := by
  have htr : truthyOpt (some "hi") = true := by decide
  simp [turnStep, processSpeech, htr, generatePhoneResponse, getConversationHistory_fst,
    tmOf_recordResponseTime, tmOf_getSession_fst, tmOf_addMessage, tmOf_updateContext]

theorem avgOf_turnStep (N : Nat) (sid : String) (now : Int) (st : Store) (d : ℚ) :
    avgOf (turnStep N sid now st d) sid =
      (avgOf st sid * ((tmOf st sid : ℚ) + 1) + d) / ((tmOf st sid : ℚ) + 2) := by
  have htr : truthyOpt (some "hi") = true := by decide
  simp [turnStep, processSpeech, htr, generatePhoneResponse, getConversationHistory_fst,
    avgOf_recordResponseTime, avgOf_getSession_fst, avgOf_addMessage, avgOf_updateContext,
    tmOf_recordResponseTime, tmOf_getSession_fst, tmOf_addMessage, tmOf_updateContext]
  ring_nf

theorem tmOf_runTurns (N : Nat) (sid : String) (now : Int) (ds : List ℚ) :
    ∀ st : Store, tmOf (runTurns N sid now st ds) sid = tmOf st sid + 2 * ds.length := by
  induction ds with
  | nil => intro st; simp [runTurns]
  | cons d ds ih =>
      intro st
      have hstep : runTurns N sid now st (d :: ds) = runTurns N sid now (turnStep N sid now st d) ds := by
        simp [runTurns]
      rw [hstep, ih, tmOf_turnStep]
      simp [List.length_cons]
      omega

/-! ## Claim theorems -/

/-- Claim C4: a speech webhook event whose utterance is empty or absent
appends no history turn, invokes none of the completion, analysis or
synthesis services, leaves the store completely unchanged, and answers with
the re-prompt TwiML rather than the error TwiML. -/
theorem claim_C4_empty_utterance_is_noop (N : Nat) (st : Store) (sid : String)
    (sr : Option String) (now : Int) (d : ℚ) (comp : Except String CompletionOutcome)
    (ana : Option Analysis) (synth : Except String String)
    (h : truthyOpt sr = false) :
    (processSpeech N st sid sr now d comp ana synth).store = st ∧
    (processSpeech N st sid sr now d comp ana synth).twiml = generateContinueConversation ∧
    (processSpeech N st sid sr now d comp ana synth).completionCalls = 0 ∧
    (processSpeech N st sid sr now d comp ana synth).analysisCalls = 0 ∧
    (processSpeech N st sid sr now d comp ana synth).synthesisCalls = 0 := by
  refine ⟨?_, ?_, ?_, ?_, ?_⟩ <;> simp [processSpeech, h]

/-- Witness for C4 at a concrete event with an absent utterance. -/
theorem claim_C4_witness :
    truthyOpt none = false ∧
    (processSpeech 10 [] "CA1" none 0 0 (Except.error "e") none (Except.error "f")).store = [] :=
  ⟨rfl, (claim_C4_empty_utterance_is_noop 10 [] "CA1" none 0 0
           (Except.error "e") none (Except.error "f") rfl).1⟩

/-- Claim C7: fetching a session never fails — an unknown id (including one
whose session was ended) gets a fresh session, a known id gets the stored
session with `lastActivity` refreshed; there is no failing branch. -/
theorem claim_C7_get_or_create (st : Store) (sid : String) (now : Int) :
    (storeLookup st sid = none →
      getSession st sid now =
        (storeSet st sid (createSessionRecord sid now), createSessionRecord sid now)) ∧
    (∀ s, storeLookup st sid = some s →
      getSession st sid now =
        (storeSet st sid { s with lastActivity := now }, { s with lastActivity := now })) ∧
    (getSession (endSession st sid) sid now).2 = createSessionRecord sid now := by
  refine ⟨fun h => by simp [getSession, h, createSession],
          fun s h => by simp [getSession, h], ?_⟩
  simp [getSession, endSession, storeLookup_storeDelete_self, createSession]

/-- Witness for C7: an unknown id is auto-created. -/
theorem claim_C7_witness :
    storeLookup ([] : Store) "CA1" = none ∧
    getSession ([] : Store) "CA1" 5 =
      (storeSet [] "CA1" (createSessionRecord "CA1" 5), createSessionRecord "CA1" 5) :=
  ⟨rfl, (claim_C7_get_or_create [] "CA1" 5).1 rfl⟩

theorem basePrompt_split (s : Session) :
    basePrompt s = behavioralPreamble ++
      (toLocaleTimeString s.startTime ++
        ("\n- Messages exchanged: " ++ toString s.metadata.totalMessages)) := by
  simp [basePrompt, String.append_assoc]

/-- Claim C8: the system prompt is a deterministic function of the session,
always contains the fixed behavioural preamble, and carries exactly one
optional augmentation — the name line when `userName` is truthy (topic then
ignored), else the topic line when `topic` is truthy, else nothing. -/
theorem claim_C8_system_prompt (s : Session) :
    (∃ t, getSystemPrompt s = behavioralPreamble ++ t) ∧
    (truthyOpt s.context.userName = true →
      getSystemPrompt s =
        basePrompt s ++ "\n- User\x27s name: " ++ s.context.userName.getD "") ∧
    (truthyOpt s.context.userName = false → truthyOpt s.context.topic = true →
      getSystemPrompt s =
        basePrompt s ++ "\n- Current topic: " ++ s.context.topic.getD "") ∧
    (truthyOpt s.context.userName = false → truthyOpt s.context.topic = false →
      getSystemPrompt s = basePrompt s) := by
  refine ⟨?_, fun h1 => by simp [getSystemPrompt, h1],
          fun h1 h2 => by simp [getSystemPrompt, h1, h2],
          fun h1 h2 => by simp [getSystemPrompt, h1, h2]⟩
  by_cases h1 : truthyOpt s.context.userName
  · exact ⟨toLocaleTimeString s.startTime ++
      ("\n- Messages exchanged: " ++ toString s.metadata.totalMessages) ++
      ("\n- User\x27s name: " ++ s.context.userName.getD ""),
      by simp [getSystemPrompt, h1, basePrompt_split, String.append_assoc]⟩
  by_cases h2 : truthyOpt s.context.topic
  · exact ⟨toLocaleTimeString s.startTime ++
      ("\n- Messages exchanged: " ++ toString s.metadata.totalMessages) ++
      ("\n- Current topic: " ++ s.context.topic.getD ""),
      by simp [getSystemPrompt, h1, h2, basePrompt_split, String.append_assoc]⟩
  · exact ⟨toLocaleTimeString s.startTime ++
      ("\n- Messages exchanged: " ++ toString s.metadata.totalMessages),
      by simp [getSystemPrompt, h1, h2, basePrompt_split]⟩

/-- Witness for C8 on a session with both a name and a topic set: the name
line is appended and the topic is ignored. -/
theorem claim_C8_witness :
    truthyOpt (some "Pat") = true ∧
    getSystemPrompt { createSessionRecord "CA1" 0 with
        context := { userName := some "Pat", topic := some "tea", mood := "neutral",
                     intent := none, shouldEndCall := none } } =
      basePrompt { createSessionRecord "CA1" 0 with
        context := { userName := some "Pat", topic := some "tea", mood := "neutral",
                     intent := none, shouldEndCall := none } } ++
        "\n- User\x27s name: " ++ "Pat" :=
  ⟨by decide, (claim_C8_system_prompt _).2.1 (by decide)⟩

/-- Claim C10: a call-start webhook for an id that already has a session
unconditionally replaces it with a fresh session — empty history, default
context, zeroed metrics — discarding the accumulated turns and metrics. -/
theorem claim_C10_call_start_replaces (st : Store) (sid : String) (s₀ : Session) (now : Int)
    (_h : storeLookup st sid = some s₀) :
    storeLookup (handleIncomingCall st sid now).1 sid = some (createSessionRecord sid now) ∧
    (createSessionRecord sid now).messages = [] ∧
    (createSessionRecord sid now).metadata =
      { totalMessages := 0, averageResponseTime := 0, errors := 0 } ∧
    (createSessionRecord sid now).context =
      { userName := none, topic := none, mood := "neutral",
        intent := none, shouldEndCall := none } ∧
    (handleIncomingCall st sid now).2 = generateGreeting := by
  refine ⟨?_, rfl, rfl, rfl, rfl⟩
  simp [handleIncomingCall, createSession, storeLookup_storeSet_self]

/-- Witness for C10: a store already holding a non-trivial session for the
id. -/
theorem claim_C10_witness :
    storeLookup demoStore "CA1" = some demoSession ∧
    storeLookup (handleIncomingCall demoStore "CA1" 7).1 "CA1" =
      some (createSessionRecord "CA1" 7) :=
  ⟨by decide, (claim_C10_call_start_replaces demoStore "CA1" demoSession 7 (by decide)).1⟩

/-- Claim C3: the stored history never exceeds the configured maximum after
an append, and 11 consecutive appends with the default maximum 10 leave
exactly the 10 most recent turns, the very first no longer present. -/
theorem claim_C3_sliding_window :
    (∀ (N : Nat) (st : Store) (sid role content : String) (now : Int), 1 ≤ N →
      histLenOf (addMessage N st sid role content now).1 sid ≤ N) ∧
    histLenOf c3Store "CA1" = 10 ∧
    contentsOf c3Store "CA1" =
      ["m2", "m3", "m4", "m5", "m6", "m7", "m8", "m9", "m10", "m11"] ∧
    "m1" ∉ contentsOf c3Store "CA1" := by
  refine ⟨?_, by decide, by decide, by decide⟩
  intro N st sid role content now hN
  have hN0 : N ≠ 0 := by omega
  simp only [addMessage, histLenOf, storeLookup_storeSet_self]
  split
  next h =>
    simp [sliceLast, if_neg hN0, List.length_drop]
    omega
  next h =>
    simp only [List.length_append, List.length_cons, List.length_nil] at h
    simp
    omega

/-- Witness for C3's bounded-length invariant at a concrete append. -/
theorem claim_C3_witness :
    1 ≤ 1 ∧ histLenOf (addMessage 1 [] "CA1" "user" "x" 0).1 "CA1" ≤ 1 :=
  ⟨by decide, (claim_C3_sliding_window).1 1 [] "CA1" "user" "x" 0 (by decide)⟩

/-- Claim C1 (recording the actual behaviour at the failing input): on a
non-empty utterance with a failing completion request, the voice controller
replies with the hang-up error TwiML (the call is terminated, not kept
alive), increments the error counter once, and appends no assistant turn —
because `generatePhoneResponse` is invoked without its `userInput` argument
and its own catch block throws before the apology fallback is reached. -/
theorem claim_C1_completion_failure_hangs_up :
    c1Run.twiml = generateError errorApology ∧
    keepsCallAlive c1Run.twiml = false ∧
    errorsOf c1Run.store "CA1" = 1 ∧
    rolesOf c1Run.store "CA1" = ["user"] ∧
    c1Run.completionCalls = 1 ∧
    c1Run.synthesisCalls = 0 := by
  decide

/-- Claim C5: when the completion succeeds and synthesis fails, the reply is
the text-kind TwiML over the completion text (no `play` verb), the call is
kept alive, and the error counter is untouched. -/
theorem claim_C5_synthesis_fallback (N : Nat) (st : Store) (sid u : String) (now : Int)
    (d : ℚ) (resp : String) (dur : ℚ) (ana : Option Analysis) (e : String)
    (hu : u ≠ "") :
    (processSpeech N st sid (some u) now d
        (Except.ok { response := resp, duration := dur }) ana (Except.error e)).twiml =
      generateTextResponse resp ∧
    containsPlay (processSpeech N st sid (some u) now d
        (Except.ok { response := resp, duration := dur }) ana (Except.error e)).twiml = false ∧
    keepsCallAlive (processSpeech N st sid (some u) now d
        (Except.ok { response := resp, duration := dur }) ana (Except.error e)).twiml = true ∧
    errorsOf (processSpeech N st sid (some u) now d
        (Except.ok { response := resp, duration := dur }) ana (Except.error e)).store sid =
      errorsOf st sid := by
  have htr : truthyOpt (some u) = true := by simp [truthyOpt, hu]
  refine ⟨?_, ?_, ?_, ?_⟩ <;>
    simp [processSpeech, htr, generatePhoneResponse, getConversationHistory_fst,
      containsPlay, keepsCallAlive, generateTextResponse,
      errorsOf_recordResponseTime, errorsOf_getSession_fst, errorsOf_addMessage,
      errorsOf_updateContext]

/-- Witness for C5 at a concrete turn. -/
theorem claim_C5_witness :
    ("Hello" : String) ≠ "" ∧
    (processSpeech 10 freshStore "CA1" (some "Hello") 1 100
        (Except.ok { response := "Hi there", duration := 3 }) none
        (Except.error "TTS down")).twiml = generateTextResponse "Hi there" :=
  ⟨by decide, (claim_C5_synthesis_fallback 10 freshStore "CA1" "Hello" 1 100 "Hi there" 3
      none "TTS down" (by decide)).1⟩

/-- Claim C2 counterexample: after one completed turn whose recorded
duration is 100, the stored average is 50, not the arithmetic mean 100 —
each turn appends two messages (user and assistant) before the recording,
so the divisor is the message count, not the number of recorded samples. -/
theorem claim_C2_counterexample :
    avgAfter [100] = 50 ∧ avgAfter [100] ≠ (100 : ℚ) := by
  have h0 : tmOf freshStore "CA1" = 0 := by decide
  have ha : avgOf freshStore "CA1" = 0 := by
    simp [freshStore, handleIncomingCall, createSession, avgOf,
      storeLookup_storeSet_self, createSessionRecord]
  have h : avgAfter [100] = 50 := by
    unfold avgAfter runTurns
    simp only [List.foldl_cons, List.foldl_nil]
    rw [avgOf_turnStep, h0, ha]
    norm_num
  exact ⟨h, by rw [h]; norm_num⟩

/-- Claim C2 (amended): `recordResponseTime` applies exactly
`avg' = (avg*(n-1) + sample)/n`, but with `n` the session's post-increment
*message* count (`metadata.totalMessages`), never recomputing from scratch.
Each completed turn appends two messages before recording one duration, so
after the turns `ds ++ [d]` the stored value obeys
`avg' = (avg*(2k+1) + d)/(2k+2)` with `k = ds.length` — a weighted value,
not the arithmetic mean of the recorded durations; a single turn stores
`d / 2`. -/
theorem claim_C2_running_average :
    (∀ (st : Store) (sid : String) (rt : ℚ) (now : Int),
      avgOf (recordResponseTime st sid rt now) sid =
        (avgOf st sid * ((tmOf st sid : ℚ) - 1) + rt) / (tmOf st sid : ℚ)) ∧
    (∀ (ds : List ℚ) (d : ℚ),
      avgAfter (ds ++ [d]) =
        (avgAfter ds * (2 * (ds.length : ℚ) + 1) + d) / (2 * (ds.length : ℚ) + 2)) ∧
    (∀ d : ℚ, avgAfter [d] = d / 2) := by
  have h0 : tmOf freshStore "CA1" = 0 := by decide
  have h0a : avgAfter [] = 0 := by decide
  have hrec : ∀ (ds : List ℚ) (d : ℚ),
      avgAfter (ds ++ [d]) =
        (avgAfter ds * (2 * (ds.length : ℚ) + 1) + d) / (2 * (ds.length : ℚ) + 2) := by
    intro ds d
    unfold avgAfter
    have hsplit : runTurns 10 "CA1" 0 freshStore (ds ++ [d]) =
        turnStep 10 "CA1" 0 (runTurns 10 "CA1" 0 freshStore ds) d := by
      simp [runTurns, List.foldl_append]
    rw [hsplit, avgOf_turnStep, tmOf_runTurns, h0]
    push_cast
    ring_nf
  refine ⟨fun st sid rt now => avgOf_recordResponseTime st sid rt now, hrec, fun d => ?_⟩
  have h := hrec [] d
  rw [List.nil_append] at h
  rw [h, h0a]
  norm_num

/-- Supporting partition fact for the sweep: kept plus removed is the whole
store. -/
theorem cleanup_partition (st : Store) (now T : Int) :
    (cleanupWith st now T).1.length + (cleanupWith st now T).2 = st.length := by
  simp only [cleanupWith]
  induction st with
  | nil => simp
  | cons x xs ih =>
      by_cases h : decide (x.2.lastActivity < now - T) = true
      · simp [List.filter_cons, h]
        omega
      · have h2 : decide (x.2.lastActivity < now - T) = false := by simpa using h
        simp [List.filter_cons, h2]
        omega

theorem mem_keys_filter {p : (String × Session) → Bool} {st : Store} {sid : String}
    (h : sid ∈ (st.filter p).map Prod.fst) : sid ∈ st.map Prod.fst := by
  simp only [List.mem_map] at h ⊢
  obtain ⟨q, hq, rfl⟩ := h
  exact ⟨q, (List.mem_filter.mp hq).1, rfl⟩

/-- Lookup in a filtered store (for a store without duplicate keys): the
entry survives exactly when it was present and satisfies the predicate. -/
theorem storeLookup_filter_iff (p : (String × Session) → Bool) (st : Store)
    (hnd : (st.map Prod.fst).Nodup) (sid : String) (s : Session) :
    storeLookup (st.filter p) sid = some s ↔
      storeLookup st sid = some s ∧ p (sid, s) = true := by
  induction st with
  | nil => simp [storeLookup]
  | cons q rest ih =>
      obtain ⟨k, v⟩ := q
      obtain ⟨hk, hrest⟩ : k ∉ rest.map Prod.fst ∧ (rest.map Prod.fst).Nodup := by
        simpa [List.nodup_cons] using hnd
      by_cases hks : k = sid
      · subst hks
        by_cases hp : p (k, v) = true
        · simp [List.filter_cons, hp, storeLookup]
          aesop
        · have hp2 : p (k, v) = false := by simpa using hp
          have hnone : storeLookup (rest.filter p) k = none :=
            storeLookup_eq_none_of_not_mem (fun hmem => hk (mem_keys_filter hmem))
          simp [List.filter_cons, hp2, storeLookup, hnone]
          aesop
      · by_cases hp : p (k, v) = true
        · simpa [List.filter_cons, hp, storeLookup, hks] using ih hrest
        · have hp2 : p (k, v) = false := by simpa using hp
          simpa [List.filter_cons, hp2, storeLookup, hks] using ih hrest

/-- Claim C9: the sweep removes exactly the sessions whose `lastActivity`
is strictly older than `now - T` and returns their count; a session
untouched for more than `T` is removed, a session touched at or within `T`
is preserved; the source sweep is this sweep at the fixed one-hour
threshold. -/
theorem claim_C9_idle_sweep (st : Store) (now T : Int)
    (hnd : (st.map Prod.fst).Nodup) :
    (∀ sid s, storeLookup (cleanupWith st now T).1 sid = some s ↔
        storeLookup st sid = some s ∧ ¬(s.lastActivity < now - T)) ∧
    (cleanupWith st now T).2 = st.length - (cleanupWith st now T).1.length ∧
    (∀ sid s, storeLookup st sid = some s → s.lastActivity < now - T →
        storeLookup (cleanupWith st now T).1 sid = none) ∧
    (∀ sid s, storeLookup st sid = some s → now - T ≤ s.lastActivity →
        storeLookup (cleanupWith st now T).1 sid = some s) ∧
    cleanupOldSessions st now = cleanupWith st now (60 * 60 * 1000) := by
  have h1 : ∀ sid s, storeLookup (cleanupWith st now T).1 sid = some s ↔
      storeLookup st sid = some s ∧ ¬(s.lastActivity < now - T) := by
    intro sid s
    have h := storeLookup_filter_iff
      (fun q => !(decide (q.2.lastActivity < now - T))) st hnd sid s
    simpa [cleanupWith] using h
  refine ⟨h1, ?_, ?_, ?_, rfl⟩
  · have h := cleanup_partition st now T
    omega
  · intro sid s hl hlt
    cases hres : storeLookup (cleanupWith st now T).1 sid with
    | none => rfl
    | some s2 =>
        obtain ⟨hl2, hkeep⟩ := (h1 sid s2).mp hres
        rw [hl] at hl2
        cases hl2
        exact absurd hlt hkeep
  · intro sid s hl hge
    exact (h1 sid s).mpr ⟨hl, by omega⟩

/-- Witness for C9: the stale session (idle since time 0) is removed by a
sweep at time 100 with threshold 50, the fresh one (touched at time 100) is
preserved. -/
theorem claim_C9_witness :
    (sweepStore.map Prod.fst).Nodup ∧
    storeLookup (cleanupWith sweepStore 100 50).1 "S1" = none ∧
    storeLookup (cleanupWith sweepStore 100 50).1 "S2" =
      some (createSessionRecord "S2" 100) :=
  ⟨by decide,
   (claim_C9_idle_sweep sweepStore 100 50 (by decide)).2.2.1 "S1"
     (createSessionRecord "S1" 0) (by decide) (by decide),
   (claim_C9_idle_sweep sweepStore 100 50 (by decide)).2.2.2.1 "S2"
     (createSessionRecord "S2" 100) (by decide) (by decide)⟩

/-! ## Lemmas about the text-optimisation pipeline -/

theorem mem_collapseRuns_of_mem (c : Char) :
    ∀ (l : List Char) (a : Char), a ∈ l → a ∈ collapseRuns c l := by
  intro l
  induction l with
  | nil => intro a ha; cases ha
  | cons x t ih =>
      cases t with
      | nil => intro a ha; simpa [collapseRuns] using ha
      | cons y rest =>
          intro a ha
          by_cases hxy : x = c ∧ y = c
          · simp only [collapseRuns, if_pos hxy]
            rcases List.mem_cons.mp ha with rfl | hmem
            · have hay : a = y := hxy.1.trans hxy.2.symm
              exact ih a (hay ▸ List.mem_cons_self y rest)
            · exact ih a hmem
          · simp only [collapseRuns, if_neg hxy]
            rcases List.mem_cons.mp ha with rfl | hmem
            · exact List.mem_cons_self _ _
            · exact List.mem_cons_of_mem _ (ih a hmem)

theorem exists_nonws_replWB (pat rep : List Char)
    (hrep : ∃ a ∈ rep, isJsWS a = false) :
    ∀ (fuel : Nat) (pw : Bool) (l : List Char), (∃ a ∈ l, isJsWS a = false) →
      ∃ a ∈ replWB pat rep fuel pw l, isJsWS a = false := by
  intro fuel
  induction fuel with
  | zero => intro pw l h; simpa [replWB] using h
  | succ n ih =>
      intro pw l h
      cases l with
      | nil => simpa [replWB] using h
      | cons c rest =>
          by_cases hcond : pw = false ∧ pat.isPrefixOf (c :: rest) = true ∧ 0 < pat.length
          · rw [replWB, if_pos hcond]
            obtain ⟨a, ha, hnws⟩ := hrep
            exact ⟨a, List.mem_append_left _ ha, hnws⟩
          · rw [replWB, if_neg hcond]
            obtain ⟨a, ha, hnws⟩ := h
            rcases List.mem_cons.mp ha with rfl | hmem
            · exact ⟨a, List.mem_cons_self _ _, hnws⟩
            · obtain ⟨b, hb, hbnws⟩ := ih (isWordChar c) rest ⟨a, hmem, hnws⟩
              exact ⟨b, List.mem_cons_of_mem _ hb, hbnws⟩

theorem mem_dropWhile_of_neg {p : Char → Bool} :
    ∀ {l : List Char} {a : Char}, a ∈ l → p a = false → a ∈ l.dropWhile p := by
  intro l
  induction l with
  | nil => intro a ha _; cases ha
  | cons x t ih =>
      intro a ha hpa
      by_cases hx : p x = true
      · rw [List.dropWhile_cons_of_pos hx]
        rcases List.mem_cons.mp ha with rfl | hmem
        · rw [hpa] at hx; cases hx
        · exact ih hmem hpa
      · rw [List.dropWhile_cons_of_neg hx]
        exact ha

theorem trimChars_ne_nil {l : List Char} (h : ∃ a ∈ l, isJsWS a = false) :
    trimChars l ≠ [] := by
  obtain ⟨a, ha, hnws⟩ := h
  have h1 : a ∈ l.dropWhile isJsWS := mem_dropWhile_of_neg ha hnws
  have h2 : a ∈ (l.dropWhile isJsWS).reverse := List.mem_reverse.mpr h1
  have h3 : a ∈ (l.dropWhile isJsWS).reverse.dropWhile isJsWS :=
    mem_dropWhile_of_neg h2 hnws
  exact List.ne_nil_of_mem (List.mem_reverse.mpr h3)

theorem ensureEnd_ends {l : List Char} (h : l ≠ []) :
    ∃ c, (ensureEnd l).getLast? = some c ∧ isTermPunct c = true := by
  obtain ⟨c, hc⟩ : ∃ c, l.getLast? = some c := by
    cases hl : l.getLast? with
    | none => exact absurd (List.getLast?_eq_none.mp hl) h
    | some c => exact ⟨c, rfl⟩
  have he : ensureEnd l = if isTermPunct c then l else l ++ ['.'] := by
    unfold ensureEnd
    rw [hc]
  rw [he]
  by_cases ht : isTermPunct c = true
  · rw [if_pos ht]
    exact ⟨c, hc, ht⟩
  · rw [if_neg ht]
    exact ⟨'.', List.getLast?_concat l, rfl⟩

theorem head_collapseRuns (c : Char) :
    ∀ (l : List Char) (x : Char), ∃ t, collapseRuns c (x :: l) = x :: t := by
  intro l
  induction l with
  | nil => intro x; exact ⟨[], rfl⟩
  | cons y rest ih =>
      intro x
      by_cases hxy : x = c ∧ y = c
      · obtain ⟨t, ht⟩ := ih y
        refine ⟨t, ?_⟩
        simp only [collapseRuns, if_pos hxy]
        rw [ht, hxy.2, ← hxy.1]
      · exact ⟨collapseRuns c (y :: rest), by simp only [collapseRuns, if_neg hxy]⟩

theorem noRunB_collapseRuns_self (c : Char) :
    ∀ (l : List Char), noRunB c (collapseRuns c l) = true := by
  intro l
  induction l with
  | nil => rfl
  | cons x t ih =>
      cases t with
      | nil => simp [collapseRuns, noRunB]
      | cons y rest =>
          by_cases hxy : x = c ∧ y = c
          · simpa only [collapseRuns, if_pos hxy] using ih
          · simp only [collapseRuns, if_neg hxy]
            obtain ⟨t2, ht2⟩ := head_collapseRuns c rest y
            rw [ht2]
            rw [ht2] at ih
            have hb : (x == c && y == c) = false := by
              rcases not_and_or.mp hxy with h | h
              · simp [beq_eq_false_iff_ne.mpr h]
              · simp [beq_eq_false_iff_ne.mpr h]
            simp only [noRunB, hb, Bool.not_false, Bool.true_and]
            exact ih

theorem noRunB_tail {d : Char} {x : Char} {t : List Char}
    (h : noRunB d (x :: t) = true) : noRunB d t = true := by
  cases t with
  | nil => rfl
  | cons y rest =>
      simp only [noRunB, Bool.and_eq_true] at h
      exact h.2

theorem noRunB_collapseRuns_preserve (c d : Char) :
    ∀ (l : List Char), noRunB d l = true → noRunB d (collapseRuns c l) = true := by
  intro l
  induction l with
  | nil => intro _; rfl
  | cons x t ih =>
      cases t with
      | nil => intro _; simp [collapseRuns, noRunB]
      | cons y rest =>
          intro hno
          have hno' : noRunB d (y :: rest) = true := noRunB_tail hno
          have hp : (x == d && y == d) = false := by
            simp only [noRunB, Bool.and_eq_true, Bool.not_eq_true'] at hno
            exact hno.1
          by_cases hxy : x = c ∧ y = c
          · simp only [collapseRuns, if_pos hxy]
            exact ih hno'
          · simp only [collapseRuns, if_neg hxy]
            obtain ⟨t2, ht2⟩ := head_collapseRuns c rest y
            have ihy := ih hno'
            rw [ht2] at ihy ⊢
            simp only [noRunB, hp, Bool.not_false, Bool.true_and]
            exact ihy

theorem noRun_collapsePunct (l : List Char) :
    noRunB '.' (collapsePunct l) = true ∧ noRunB '!' (collapsePunct l) = true ∧
      noRunB '?' (collapsePunct l) = true := by
  unfold collapsePunct
  refine ⟨?_, ?_, ?_⟩
  · exact noRunB_collapseRuns_preserve _ _ _
      (noRunB_collapseRuns_preserve _ _ _ (noRunB_collapseRuns_self _ _))
  · exact noRunB_collapseRuns_preserve _ _ _ (noRunB_collapseRuns_self _ _)
  · exact noRunB_collapseRuns_self _ _

theorem exists_nonws_expandAbbrevs {l : List Char}
    (h : ∃ a ∈ l, isJsWS a = false) :
    ∃ a ∈ expandAbbrevs l, isJsWS a = false := by
  have step : ∀ (p : String × String), (∃ a ∈ p.2.toList, isJsWS a = false) →
      ∀ m : List Char, (∃ a ∈ m, isJsWS a = false) →
        ∃ a ∈ replacePass m p, isJsWS a = false :=
    fun p hp m hm => exists_nonws_replWB _ _ hp m.length false m hm
  simp only [expandAbbrevs, abbrevPairs, List.foldl_cons, List.foldl_nil]
  exact step _ (by decide) _ (step _ (by decide) _ (step _ (by decide) _
    (step _ (by decide) _ (step _ (by decide) _ (step _ (by decide) _
      (step _ (by decide) _ h))))))

/-- Claim C6 counterexample: on the empty input the optimiser returns the
empty string, which does not end with terminal punctuation — the final
`([^.!?])$` replace needs a last character to match. -/
theorem claim_C6_counterexample :
    optimizeTextForPhone "" = "" ∧
    endsWithTerminalPunct (optimizeTextForPhone "") = false :=
  ⟨rfl, rfl⟩

theorem endsWith_of_getLast (l : List Char) (c : Char)
    (h : l.getLast? = some c) (ht : isTermPunct c = true) :
    endsWithTerminalPunct (String.mk l) = true := by
  have hd : (String.mk l).data = l := rfl
  unfold endsWithTerminalPunct
  rw [hd, h]
  exact ht

theorem optimize_example_titles :
    optimizeTextForPhone "Hello!!! Dr. Smith etc.." = "Hello! Doctor Smith etcetera." := by
  decide

theorem optimize_example_more_titles :
    optimizeTextForPhone "Mrs. Kay, Ms. Lee and Mr. Ray" =
      "Missus Kay, Miss Lee and Mister Ray." := by
  decide

theorem optimize_example_latin :
    optimizeTextForPhone "i.e. tea, e.g. oolong??" = "that is tea, for example oolong?" := by
  decide

/-- Claim C6 (amended): after the collapse stage no run of two or more of
the same terminal punctuation mark remains; the fixed abbreviation set is
expanded to spoken-word form (shown on representative inputs across the
whole table); and the returned text ends with `.`, `!` or `?` for every
input containing at least one non-whitespace character — the empty and
whitespace-only inputs come back without a terminal mark. -/
theorem claim_C6_text_optimization :
    (∀ s : String, (∃ c ∈ s.data, isJsWS c = false) →
      endsWithTerminalPunct (optimizeTextForPhone s) = true) ∧
    (∀ s : String, noRunB '.' (collapsePunct s.data) = true ∧
      noRunB '!' (collapsePunct s.data) = true ∧
      noRunB '?' (collapsePunct s.data) = true) ∧
    optimizeTextForPhone "Hello!!! Dr. Smith etc.." = "Hello! Doctor Smith etcetera." ∧
    optimizeTextForPhone "Mrs. Kay, Ms. Lee and Mr. Ray" =
      "Missus Kay, Miss Lee and Mister Ray." ∧
    optimizeTextForPhone "i.e. tea, e.g. oolong??" = "that is tea, for example oolong?" := by
  refine ⟨?_, fun s => noRun_collapsePunct s.data, optimize_example_titles,
    optimize_example_more_titles, optimize_example_latin⟩
  intro s h
  have h1 : ∃ a ∈ collapsePunct s.data, isJsWS a = false := by
    obtain ⟨a, ha, hnws⟩ := h
    exact ⟨a, mem_collapseRuns_of_mem _ _ _
      (mem_collapseRuns_of_mem _ _ _ (mem_collapseRuns_of_mem _ _ _ ha)), hnws⟩
  have h3 : trimChars (expandAbbrevs (collapsePunct s.data)) ≠ [] :=
    trimChars_ne_nil (exists_nonws_expandAbbrevs h1)
  obtain ⟨c, hlast, hterm⟩ := ensureEnd_ends h3
  exact endsWith_of_getLast _ c hlast hterm

/-- Witness for C6's terminal-punctuation guarantee at a concrete
non-whitespace input. -/
theorem claim_C6_witness :
    (∃ c ∈ ("hi" : String).data, isJsWS c = false) ∧
    endsWithTerminalPunct (optimizeTextForPhone "hi") = true :=
  ⟨by decide, claim_C6_text_optimization.1 "hi" (by decide)⟩

end ConvAI
